import Mathlib

set_option maxRecDepth 100000

/-!
Verification development for the USBShark firmware core.

Shallow embedding of the C sources under src/firmware:
* ringbuffer.h        - lock-free SPSC ring buffer
* comm_protocol.c     - host framing protocol (CRC-16/CCITT, escaping, rx FSM)
* usb_protocol.c      - USB packet decoding (CRC5 / CRC16)
* usb_interface.c     - interrupt-driven signal decoder and transaction state

Machine integers are modelled as Nat with explicit wrap (% 256, % 65536,
% 2^32) at the points where the C code performs modular arithmetic.
-/

namespace USBShark

/-! ## Ring buffer (src/firmware/include/ringbuffer.h)

`RINGBUF_SIZE = 128`, `RINGBUF_MASK = 127`.  The C struct holds
`buffer[128]`, `write_index`, `read_index`, `overflow_count`, all uint8.
The buffer contents at startup are whatever is in memory, so the initial
buffer is a parameter.  Indices are always masked with `& 127`
(here `% 128`); `overflow_count` wraps at 256. -/

structure RBState where
  buffer : List Nat
  write_index : Nat
  read_index : Nat
  overflow_count : Nat
deriving DecidableEq

/-- Model of `ringbuffer_init`: zero both indices and the overflow counter;
the data array (`buf0`) keeps its ambient contents. -/
def ringbuffer_init (buf0 : List Nat) : RBState :=
  { buffer := buf0, write_index := 0, read_index := 0, overflow_count := 0 }

/-- Model of `ringbuffer_empty`: `write_index == read_index`. -/
def ringbuffer_empty (rb : RBState) : Bool :=
  rb.write_index == rb.read_index

/-- Model of `ringbuffer_full`: `((write_index + 1) & RINGBUF_MASK) == read_index`. -/
def ringbuffer_full (rb : RBState) : Bool :=
  (rb.write_index + 1) % 128 == rb.read_index

/-- Model of `ringbuffer_count`: `(write_index - read_index) & RINGBUF_MASK` with
uint8 subtraction; both indices are kept below 256, so the uint8
difference is `(w + 256 - r) % 256`, then masked with `% 128`. -/
def ringbuffer_count (rb : RBState) : Nat :=
  ((rb.write_index + 256 - rb.read_index) % 256) % 128

/-- Model of `ringbuffer_free`: `RINGBUF_SIZE - count - 1` (count is at most 127,
so the subtraction does not underflow). -/
def ringbuffer_free (rb : RBState) : Nat :=
  128 - ringbuffer_count rb - 1

/-- Model of `ringbuffer_push`: returns `(ok, new state)`.  On full: increment
`overflow_count` (uint8, wraps at 256) and change nothing else.
Otherwise write at `write_index` and advance it. -/
def ringbuffer_push (rb : RBState) (data : Nat) : Bool × RBState :=
  let next_write := (rb.write_index + 1) % 128
  if next_write == rb.read_index then
    (false, { rb with overflow_count := (rb.overflow_count + 1) % 256 })
  else
    (true, { rb with buffer := rb.buffer.set rb.write_index data,
                     write_index := next_write })

/-- Model of `ringbuffer_pop`: returns `(popped byte, new state)`; on empty the
state is untouched and no byte is produced. -/
def ringbuffer_pop (rb : RBState) : Option Nat × RBState :=
  if rb.read_index == rb.write_index then
    (none, rb)
  else
    (some (rb.buffer.getD rb.read_index 0),
     { rb with read_index := (rb.read_index + 1) % 128 })

/-- Readout of the unread bytes, in pop order (specification-side view of
the buffer contents used to state theorems). -/
def rb_contents (rb : RBState) : List Nat :=
  (List.range (ringbuffer_count rb)).map
    (fun i => rb.buffer.getD ((rb.read_index + i) % 128) 0)

/-- A producer/consumer operation on the ring buffer. -/
inductive RBOp where
  | push (b : Nat)
  | pop
deriving DecidableEq

/-- Run a sequence of push/pop operations from a freshly initialized
buffer whose data array starts as `buf0`. -/
def rb_run (buf0 : List Nat) (ops : List RBOp) : RBState :=
  ops.foldl
    (fun s op =>
      match op with
      | RBOp.push b => (ringbuffer_push s b).2
      | RBOp.pop => (ringbuffer_pop s).2)
    (ringbuffer_init buf0)

/-! ## Host framing protocol CRC (src/firmware/src/comm_protocol.c)

CRC-16/CCITT, table-driven, init 0xFFFF:
`crc = (crc << 8) ^ crc16_table[(crc >> 8) ^ data[i]]` on uint16. -/

/-- Table `crc16_table` from comm_protocol.c (CCITT polynomial 0x1021). -/
def comm_crc16_table : List Nat :=
  [0x0000, 0x1021, 0x2042, 0x3063, 0x4084, 0x50A5, 0x60C6, 0x70E7,
   0x8108, 0x9129, 0xA14A, 0xB16B, 0xC18C, 0xD1AD, 0xE1CE, 0xF1EF,
   0x1231, 0x0210, 0x3273, 0x2252, 0x52B5, 0x4294, 0x72F7, 0x62D6,
   0x9339, 0x8318, 0xB37B, 0xA35A, 0xD3BD, 0xC39C, 0xF3FF, 0xE3DE,
   0x2462, 0x3443, 0x0420, 0x1401, 0x64E6, 0x74C7, 0x44A4, 0x5485,
   0xA56A, 0xB54B, 0x8528, 0x9509, 0xE5EE, 0xF5CF, 0xC5AC, 0xD58D,
   0x3653, 0x2672, 0x1611, 0x0630, 0x76D7, 0x66F6, 0x5695, 0x46B4,
   0xB75B, 0xA77A, 0x9719, 0x8738, 0xF7DF, 0xE7FE, 0xD79D, 0xC7BC,
   0x48C4, 0x58E5, 0x6886, 0x78A7, 0x0840, 0x1861, 0x2802, 0x3823,
   0xC9CC, 0xD9ED, 0xE98E, 0xF9AF, 0x8948, 0x9969, 0xA90A, 0xB92B,
   0x5AF5, 0x4AD4, 0x7AB7, 0x6A96, 0x1A71, 0x0A50, 0x3A33, 0x2A12,
   0xDBFD, 0xCBDC, 0xFBBF, 0xEB9E, 0x9B79, 0x8B58, 0xBB3B, 0xAB1A,
   0x6CA6, 0x7C87, 0x4CE4, 0x5CC5, 0x2C22, 0x3C03, 0x0C60, 0x1C41,
   0xEDAE, 0xFD8F, 0xCDEC, 0xDDCD, 0xAD2A, 0xBD0B, 0x8D68, 0x9D49,
   0x7E97, 0x6EB6, 0x5ED5, 0x4EF4, 0x3E13, 0x2E32, 0x1E51, 0x0E70,
   0xFF9F, 0xEFBE, 0xDFDD, 0xCFFC, 0xBF1B, 0xAF3A, 0x9F59, 0x8F78,
   0x9188, 0x81A9, 0xB1CA, 0xA1EB, 0xD10C, 0xC12D, 0xF14E, 0xE16F,
   0x1080, 0x00A1, 0x30C2, 0x20E3, 0x5004, 0x4025, 0x7046, 0x6067,
   0x83B9, 0x9398, 0xA3FB, 0xB3DA, 0xC33D, 0xD31C, 0xE37F, 0xF35E,
   0x02B1, 0x1290, 0x22F3, 0x32D2, 0x4235, 0x5214, 0x6277, 0x7256,
   0xB5EA, 0xA5CB, 0x95A8, 0x8589, 0xF56E, 0xE54F, 0xD52C, 0xC50D,
   0x34E2, 0x24C3, 0x14A0, 0x0481, 0x7466, 0x6447, 0x5424, 0x4405,
   0xA7DB, 0xB7FA, 0x8799, 0x97B8, 0xE75F, 0xF77E, 0xC71D, 0xD73C,
   0x26D3, 0x36F2, 0x0691, 0x16B0, 0x6657, 0x7676, 0x4615, 0x5634,
   0xD94C, 0xC96D, 0xF90E, 0xE92F, 0x99C8, 0x89E9, 0xB98A, 0xA9AB,
   0x5844, 0x4865, 0x7806, 0x6827, 0x18C0, 0x08E1, 0x3882, 0x28A3,
   0xCB7D, 0xDB5C, 0xEB3F, 0xFB1E, 0x8BF9, 0x9BD8, 0xABBB, 0xBB9A,
   0x4A75, 0x5A54, 0x6A37, 0x7A16, 0x0AF1, 0x1AD0, 0x2AB3, 0x3A92,
   0xFD2E, 0xED0F, 0xDD6C, 0xCD4D, 0xBDAA, 0xAD8B, 0x9DE8, 0x8DC9,
   0x7C26, 0x6C07, 0x5C64, 0x4C45, 0x3CA2, 0x2C83, 0x1CE0, 0x0CC1,
   0xEF1F, 0xFF3E, 0xCF5D, 0xDF7C, 0xAF9B, 0xBFBA, 0x8FD9, 0x9FF8,
   0x6E17, 0x7E36, 0x4E55, 0x5E74, 0x2E93, 0x3EB2, 0x0ED1, 0x1EF0]

/-- One step of the CCITT CRC on a uint16 accumulator. -/
def comm_crc16_step (crc b : Nat) : Nat :=
  ((crc <<< 8) ^^^ comm_crc16_table.getD (((crc >>> 8) ^^^ b) % 256) 0) % 65536

/-- Model of `comm_calculate_crc_continue`: continue the CRC from a previous value. -/
def comm_calculate_crc_continue (data : List Nat) (crc : Nat) : Nat :=
  data.foldl comm_crc16_step crc

/-- Model of `comm_calculate_crc`: CRC-16/CCITT with initial value 0xFFFF. -/
def comm_calculate_crc (data : List Nat) : Nat :=
  comm_calculate_crc_continue data 0xFFFF

/-! ## Byte escaping (src/firmware/src/comm_protocol.c)

`COMM_SYNC_BYTE = 0xAA`, `COMM_ESCAPE_BYTE = 0x55`.  `comm_escape_data`
writes through a uint8 cursor `out_idx`, so the cursor (and the reported
`*escaped_length`) wrap at 256; the destination is modelled as a 256-byte
array, which is exactly the index range `dest[out_idx]` can touch.  All
cells the result can expose are written before being read, so the
initial fill value of the model array is never observable. -/

/-- One loop iteration of `comm_escape_data`: `p.1` is the destination
array, `p.2` the uint8 cursor `out_idx`. -/
def escStep (p : List Nat × Nat) (b : Nat) : List Nat × Nat :=
  if b = 0xAA ∨ b = 0x55 then
    ((p.1.set p.2 0x55).set ((p.2 + 1) % 256) (b ^^^ 0xFF), (p.2 + 2) % 256)
  else
    (p.1.set p.2 b, (p.2 + 1) % 256)

/-- Model of `comm_escape_data`: returns the bytes exposed to the caller
(`dest[0 .. *escaped_length)`) together with the reported length. -/
def comm_escape_data (src : List Nat) : List Nat × Nat :=
  let fin := src.foldl escStep (List.replicate 256 0, 0)
  (fin.1.take fin.2, fin.2)

/-- The escaped byte stream itself (the sequence of writes
`comm_escape_data` performs, before the uint8 cursor wrap is applied). -/
def escBytes : List Nat → List Nat
  | [] => []
  | b :: rest =>
      (if b = 0xAA ∨ b = 0x55 then [0x55, b ^^^ 0xFF] else [b]) ++ escBytes rest

/-- Recursive core of `comm_unescape_data`: `esc` is the escape-pending
flag; a trailing pending escape is the failure case. -/
def unescapeGo : List Nat → Bool → Option (List Nat)
  | [], esc => if esc then none else some []
  | b :: rest, true => (unescapeGo rest false).map (fun out => (b ^^^ 0xFF) :: out)
  | b :: rest, false =>
      if b = 0x55 then unescapeGo rest true
      else (unescapeGo rest false).map (fun out => b :: out)

/-- Model of `comm_unescape_data`: returns the unescaped bytes, or `none` when the
input ends while an escape is pending (the C function returns false and
does not report a length). -/
def comm_unescape_data (src : List Nat) : Option (List Nat) :=
  unescapeGo src false

/-- Length of the trailing run of escape bytes (0x55) of a byte list. -/
def trailingEsc (l : List Nat) : Nat :=
  (l.reverse.takeWhile (fun b => b == 0x55)).length

/-- Final value of the escape-pending flag after scanning a byte list. -/
def endFlag : List Nat → Bool → Bool
  | [], esc => esc
  | b :: rest, esc => endFlag rest (!esc && (b == 0x55))

/-! ## Receive FSM (src/firmware/src/comm_protocol.c, process_rx_byte)

State machine `WAIT_SYNC -> TYPE -> LENGTH -> SEQUENCE -> DATA ->
CRC_HIGH -> CRC_LOW -> WAIT_SYNC`.  `COMM_MAX_PACKET_SIZE = 255`.
The static one-shot `escape_next` flag lives next to the FSM state.
Delivering the validated packet to `comm_process_command`, and sending a
NACK, are the observable outputs of a step; stores into the 255-byte
`rx_packet.data` array are recorded as `(index, value)` pairs so that
in-bounds behaviour can be stated. -/

/-- The `proto_state_t` enumeration. -/
inductive ProtoState where
  | wait_sync
  | ptype
  | plength
  | psequence
  | pdata
  | crc_high
  | crc_low
deriving DecidableEq

/-- The `comm_packet_t` record as filled by the receive FSM (the `sync`
field of the C struct is never written by `process_rx_byte` and is
omitted). -/
structure CommPacket where
  ptype : Nat
  len : Nat
  seq : Nat
  data : List Nat
  crc : Nat
deriving DecidableEq

/-- Full mutable state of the receive path: FSM state, counters, the
packet under construction and the static `escape_next` flag. -/
structure RxState where
  rx_state : ProtoState
  rx_data_count : Nat
  rx_packet_length : Nat
  rx_packet : CommPacket
  escape_next : Bool
deriving DecidableEq

/-- Observable outputs of one receive step: delivery of a validated
packet to the command dispatcher (`comm_process_command`), or a NACK
with sequence number and error code (`ERR_CRC_FAILURE = 0x03`). -/
inductive RxOutput where
  | dispatch (pkt : CommPacket)
  | nack (seq : Nat) (err : Nat)
deriving DecidableEq

/-- Result of one `process_rx_byte` call: the new state, the outputs
emitted, and the stores performed on the `rx_packet.data` array. -/
structure RxStep where
  state : RxState
  outputs : List RxOutput
  writes : List (Nat × Nat)
deriving DecidableEq

/-- The reset state of the receive path (`comm_init` plus zeroed
statics). -/
def rxInit : RxState :=
  { rx_state := ProtoState.wait_sync
    rx_data_count := 0
    rx_packet_length := 0
    rx_packet := { ptype := 0, len := 0, seq := 0,
                   data := List.replicate 255 0, crc := 0 }
    escape_next := false }

/-- A concrete receive state sitting in CRC_LOW (type 5, declared length
0, sequence 9, no escape pending), used to instantiate theorems. -/
def rxCrcLowExample : RxState :=
  { rx_state := ProtoState.crc_low
    rx_data_count := 0
    rx_packet_length := 0
    rx_packet := { ptype := 5, len := 0, seq := 9,
                   data := List.replicate 255 0, crc := 0 }
    escape_next := false }

/-- Model of `process_rx_byte`: the escape handling runs before the state switch,
so a 0x55 byte sets `escape_next` and returns in every state, including
`WAIT_SYNC`; the `WAIT_SYNC` sync test compares the raw (not unescaped)
byte against 0xAA. -/
def process_rx_byte (s : RxState) (byte : Nat) : RxStep :=
  if s.escape_next = false ∧ byte = 0x55 then
    { state := { s with escape_next := true }, outputs := [], writes := [] }
  else
    let unescaped_byte := if s.escape_next then byte ^^^ 0xFF else byte
    let s := { s with escape_next := false }
    match s.rx_state with
    | ProtoState.wait_sync =>
        if byte = 0xAA then
          { state := { s with rx_state := ProtoState.ptype, rx_data_count := 0 }
            outputs := [], writes := [] }
        else
          { state := s, outputs := [], writes := [] }
    | ProtoState.ptype =>
        { state := { s with rx_packet := { s.rx_packet with ptype := unescaped_byte }
                            rx_state := ProtoState.plength }
          outputs := [], writes := [] }
    | ProtoState.plength =>
        { state := { s with rx_packet := { s.rx_packet with len := unescaped_byte }
                            rx_packet_length := unescaped_byte
                            rx_state := ProtoState.psequence }
          outputs := [], writes := [] }
    | ProtoState.psequence =>
        { state := { s with rx_packet := { s.rx_packet with seq := unescaped_byte }
                            rx_state := if s.rx_packet_length > 0
                                        then ProtoState.pdata
                                        else ProtoState.crc_high }
          outputs := [], writes := [] }
    | ProtoState.pdata =>
        let stored := s.rx_data_count < 255
        let s1 := if stored then
                    { s with rx_packet :=
                        { s.rx_packet with
                            data := s.rx_packet.data.set s.rx_data_count unescaped_byte },
                             rx_data_count := s.rx_data_count + 1 }
                  else s
        { state := if s1.rx_data_count ≥ s1.rx_packet_length
                   then { s1 with rx_state := ProtoState.crc_high }
                   else s1
          outputs := []
          writes := if stored then [(s.rx_data_count, unescaped_byte)] else [] }
    | ProtoState.crc_high =>
        { state := { s with rx_packet := { s.rx_packet with crc := (unescaped_byte <<< 8) % 65536 }
                            rx_state := ProtoState.crc_low }
          outputs := [], writes := [] }
    | ProtoState.crc_low =>
        let pkt := { s.rx_packet with crc := s.rx_packet.crc ||| unescaped_byte }
        let calculated_crc :=
          comm_calculate_crc_continue (pkt.data.take pkt.len)
            (comm_calculate_crc [pkt.ptype, pkt.len, pkt.seq])
        { state := { s with rx_packet := pkt, rx_state := ProtoState.wait_sync }
          outputs := if calculated_crc = pkt.crc
                     then [RxOutput.dispatch pkt]
                     else [RxOutput.nack pkt.seq 0x03]
          writes := [] }

/-- Feed a byte stream through the receive FSM from the reset state,
collecting every data-array store performed along the way. -/
def rx_run (bytes : List Nat) : RxState × List (Nat × Nat) :=
  bytes.foldl
    (fun p b =>
      let r := process_rx_byte p.1 b
      (r.state, p.2 ++ r.writes))
    (rxInit, [])

/-! ## USB packet decoding (src/firmware/src/usb_protocol.c) -/

/-- Table `crc16_table` from usb_protocol.c (polynomial 0x8005, reflected). -/
def usb_crc16_table : List Nat :=
  [0x0000, 0x8005, 0x800F, 0x000A, 0x801B, 0x001E, 0x0014, 0x8011,
   0x8033, 0x0036, 0x003C, 0x8039, 0x0028, 0x802D, 0x8027, 0x0022,
   0x8063, 0x0066, 0x006C, 0x8069, 0x0078, 0x807D, 0x8077, 0x0072,
   0x0050, 0x8055, 0x805F, 0x005A, 0x804B, 0x004E, 0x0044, 0x8041,
   0x80C3, 0x00C6, 0x00CC, 0x80C9, 0x00D8, 0x80DD, 0x80D7, 0x00D2,
   0x00F0, 0x80F5, 0x80FF, 0x00FA, 0x80EB, 0x00EE, 0x00E4, 0x80E1,
   0x00A0, 0x80A5, 0x80AF, 0x00AA, 0x80BB, 0x00BE, 0x00B4, 0x80B1,
   0x8093, 0x0096, 0x009C, 0x8099, 0x0088, 0x808D, 0x8087, 0x0082,
   0x8183, 0x0186, 0x018C, 0x8189, 0x0198, 0x819D, 0x8197, 0x0192,
   0x01B0, 0x81B5, 0x81BF, 0x01BA, 0x81AB, 0x01AE, 0x01A4, 0x81A1,
   0x01E0, 0x81E5, 0x81EF, 0x01EA, 0x81FB, 0x01FE, 0x01F4, 0x81F1,
   0x81D3, 0x01D6, 0x01DC, 0x81D9, 0x01C8, 0x81CD, 0x81C7, 0x01C2,
   0x0140, 0x8145, 0x814F, 0x014A, 0x815B, 0x015E, 0x0154, 0x8151,
   0x8173, 0x0176, 0x017C, 0x8179, 0x0168, 0x816D, 0x8167, 0x0162,
   0x8123, 0x0126, 0x012C, 0x8129, 0x0138, 0x813D, 0x8137, 0x0132,
   0x0110, 0x8115, 0x811F, 0x011A, 0x810B, 0x010E, 0x0104, 0x8101,
   0x8303, 0x0306, 0x030C, 0x8309, 0x0318, 0x831D, 0x8317, 0x0312,
   0x0330, 0x8335, 0x833F, 0x033A, 0x832B, 0x032E, 0x0324, 0x8321,
   0x0360, 0x8365, 0x836F, 0x036A, 0x837B, 0x037E, 0x0374, 0x8371,
   0x8353, 0x0356, 0x035C, 0x8359, 0x0348, 0x834D, 0x8347, 0x0342,
   0x03C0, 0x83C5, 0x83CF, 0x03CA, 0x83DB, 0x03DE, 0x03D4, 0x83D1,
   0x83F3, 0x03F6, 0x03FC, 0x83F9, 0x03E8, 0x83ED, 0x83E7, 0x03E2,
   0x83A3, 0x03A6, 0x03AC, 0x83A9, 0x03B8, 0x83BD, 0x83B7, 0x03B2,
   0x0390, 0x8395, 0x839F, 0x039A, 0x838B, 0x038E, 0x0384, 0x8381,
   0x0280, 0x8285, 0x828F, 0x028A, 0x829B, 0x029E, 0x0294, 0x8291,
   0x82B3, 0x02B6, 0x02BC, 0x82B9, 0x02A8, 0x82AD, 0x82A7, 0x02A2,
   0x82E3, 0x02E6, 0x02EC, 0x82E9, 0x02F8, 0x82FD, 0x82F7, 0x02F2,
   0x02D0, 0x82D5, 0x82DF, 0x02DA, 0x82CB, 0x02CE, 0x02C4, 0x82C1,
   0x8243, 0x0246, 0x024C, 0x8249, 0x0258, 0x825D, 0x8257, 0x0252,
   0x0270, 0x8275, 0x827F, 0x027A, 0x826B, 0x026E, 0x0264, 0x8261,
   0x0220, 0x8225, 0x822F, 0x022A, 0x823B, 0x023E, 0x0234, 0x8231,
   0x8213, 0x0216, 0x021C, 0x8219, 0x0208, 0x820D, 0x8207, 0x0202]

/-- Model of `usb_calculate_crc16`: `crc = (crc >> 8) ^ table[(crc ^ b) & 0xFF]`
from 0xFFFF, with the final value complemented (uint16 `~crc`). -/
def usb_calculate_crc16 (data : List Nat) : Nat :=
  (data.foldl
    (fun crc b => (crc >>> 8) ^^^ usb_crc16_table.getD ((crc ^^^ b) % 256) 0)
    0xFFFF) ^^^ 0xFFFF

/-- Model of `usb_calculate_crc5`: 11-round bitwise LFSR, polynomial term 0x14,
initial state 0x1F. -/
def usb_calculate_crc5 (data : Nat) : Nat :=
  let rec go (crc d : Nat) : Nat → Nat
    | 0 => crc
    | n + 1 =>
        go (if (crc ^^^ d) % 2 = 1 then (crc >>> 1) ^^^ 0x14 else crc >>> 1)
           (d >>> 1) n
  go 0x1F data 11

/-- PID values from usb_interface.h. -/
def USB_PID_OUT : Nat := 0xE1
def USB_PID_IN : Nat := 0x69
def USB_PID_SOF : Nat := 0xA5
def USB_PID_SETUP : Nat := 0x2D
def USB_PID_DATA0 : Nat := 0xC3
def USB_PID_DATA1 : Nat := 0x4B
def USB_PID_ACK : Nat := 0xD2
def USB_PID_NAK : Nat := 0x5A
def USB_PID_STALL : Nat := 0x1E

/-- Model of `usb_is_token_packet`. -/
def usb_is_token_packet (pid : Nat) : Bool :=
  pid == USB_PID_OUT || pid == USB_PID_IN || pid == USB_PID_SETUP || pid == USB_PID_SOF

/-- Model of `usb_is_data_packet`. -/
def usb_is_data_packet (pid : Nat) : Bool :=
  pid == USB_PID_DATA0 || pid == USB_PID_DATA1

/-- Model of `usb_is_handshake_packet`. -/
def usb_is_handshake_packet (pid : Nat) : Bool :=
  pid == USB_PID_ACK || pid == USB_PID_NAK || pid == USB_PID_STALL

/-- Model of `usb_get_endpoint_from_token` on the two bytes after the PID. -/
def usb_get_endpoint_from_token (b1 b2 : Nat) : Nat :=
  ((b1 &&& 0x07) <<< 1) ||| ((b2 &&& 0x80) >>> 7)

/-- Model of `usb_get_address_from_token` on the two bytes after the PID. -/
def usb_get_address_from_token (b2 : Nat) : Nat :=
  b2 &&& 0x7F

/-- The `usb_packet_t` record (the `data` pointer is modelled as the
byte list it points at). -/
structure UsbPacket where
  timestamp : Nat
  pid : Nat
  endpoint : Nat
  dev_addr : Nat
  data_len : Nat
  data : List Nat
  crc_valid : Bool
deriving DecidableEq

/-- Model of `usb_decode_packet`: `raw` is the byte array with its length
`raw.length`; `p0` holds the contents of the caller's packet struct
before the call, since the C function leaves some fields (timestamp
always; address/endpoint for data packets) unassigned. -/
def usb_decode_packet (raw : List Nat) (p0 : UsbPacket) : Option UsbPacket :=
  if raw.length < 1 then none
  else
    let pid := raw.getD 0 0
    let p1 := { p0 with pid := pid }
    if usb_is_token_packet pid then
      if raw.length < 3 then none
      else
        let b1 := raw.getD 1 0
        let b2 := raw.getD 2 0
        let token := (b1 ||| (b2 <<< 8)) &&& 0x07FF
        some { p1 with
                 dev_addr := usb_get_address_from_token b2
                 endpoint := usb_get_endpoint_from_token b1 b2
                 crc_valid := usb_calculate_crc5 token == b2 >>> 3
                 data := []
                 data_len := 0 }
    else if usb_is_data_packet pid then
      if raw.length < 3 then none
      else
        let dlen := raw.length - 3
        if dlen > 0 then
          some { p1 with
                   data_len := dlen
                   data := (raw.drop 1).take dlen
                   crc_valid :=
                     usb_calculate_crc16 ((raw.drop 1).take dlen) ==
                       ((raw.getD (raw.length - 1) 0 <<< 8) ||| raw.getD (raw.length - 2) 0) }
        else
          some { p1 with data_len := dlen, data := [], crc_valid := true }
    else if usb_is_handshake_packet pid then
      some { p1 with data := [], data_len := 0, crc_valid := true,
                     dev_addr := 0, endpoint := 0 }
    else none

/-! ## Signal decoder ISR (src/firmware/src/usb_interface.c, ISR(INT0_vect))

`USB_MAX_PACKET_SIZE = 64`.  The interrupt handler state is the module
globals (`monitoring_enabled`, `packet_in_progress`, `current_pid`,
`packet_data_buffer`, `packet_data_length`, `bus_reset_detected`,
transaction-tracking fields, the packet ring buffer) plus the
function-local statics (`last_dp_state`, `last_dm_state`,
`last_edge_time`, `bit_count`, `current_byte`, `sync_detected`).
`comm_send_packet` calls are the observable outputs, modelled as
`(type, payload)` pairs.  Reads past the end of `packet_data_buffer`
(possible when `packet_data_length` exceeds 64) are modelled as 0. -/

/-- The `transaction_type_t` enumeration. -/
inductive TransType where
  | none
  | control_setup
  | control_data
  | control_status
  | bulk_in
  | bulk_out
  | interrupt_in
  | interrupt_out
  | isochronous
deriving DecidableEq

/-- Global plus static state visible to `ISR(INT0_vect)`. -/
structure IsrState where
  monitoring_enabled : Bool
  packet_in_progress : Bool
  current_pid : Nat
  packet_data_buffer : List Nat
  packet_data_length : Nat
  bus_reset_detected : Bool
  transaction_in_progress : Bool
  current_transaction : TransType
  usb_packet_buffer : RBState
  last_dp_state : Bool
  last_dm_state : Bool
  last_edge_time : Nat
  bit_count : Nat
  current_byte : Nat
  sync_detected : Bool
deriving DecidableEq

/-- The state after `usb_init` with monitoring switched on (the
interesting configuration for the decoder; `usb_monitor_enable` resets
the ring buffer and transaction fields and sets `monitoring_enabled`). -/
def isrInit : IsrState :=
  { monitoring_enabled := true
    packet_in_progress := false
    current_pid := 0
    packet_data_buffer := List.replicate 64 0
    packet_data_length := 0
    bus_reset_detected := false
    transaction_in_progress := false
    current_transaction := TransType.none
    usb_packet_buffer := ringbuffer_init (List.replicate 128 0)
    last_dp_state := false
    last_dm_state := false
    last_edge_time := 0
    bit_count := 0
    current_byte := 0
    sync_detected := false }

/-- Model of `ISR(INT0_vect)` for one edge interrupt, given the sampled line
levels `dp`, `dm` and the captured 32-bit `timestamp`.  Returns the new
state and the list of `comm_send_packet (type, payload)` calls made. -/
def isr_int0 (s : IsrState) (dp dm : Bool) (timestamp : Nat) : IsrState × List (Nat × List Nat) :=
  if ¬s.monitoring_enabled then (s, [])
  else
    let ts := timestamp % 4294967296
    let time_diff := (ts + 4294967296 - s.last_edge_time) % 4294967296
    let dp_edge := dp ≠ s.last_dp_state
    let dm_edge := dm ≠ s.last_dm_state
    let s := { s with last_edge_time := ts, last_dp_state := dp, last_dm_state := dm }
    if ¬dp ∧ ¬dm then
      if time_diff > 20 then
        let s1 :=
          if s.packet_in_progress then
            let s2 := { s with packet_in_progress := false }
            if s2.packet_data_length > 0 then
              let rb1 := (ringbuffer_push s2.usb_packet_buffer s2.current_pid).2
              let rb2 := (ringbuffer_push rb1 s2.packet_data_length).2
              let rb3 := (List.range s2.packet_data_length).foldl
                (fun rb i => (ringbuffer_push rb (s2.packet_data_buffer.getD i 0)).2) rb2
              { s2 with usb_packet_buffer := rb3, packet_data_length := 0 }
            else s2
          else s
        let s3 := if time_diff > 250 then { s1 with bus_reset_detected := true } else s1
        let out := if time_diff > 250 then [(0x81, [2])] else []
        ({ s3 with sync_detected := false, bit_count := 0, current_byte := 0 }, out)
      else (s, [])
    else if dp_edge ∨ dm_edge then
      if ¬s.sync_detected then
        if dp ∧ ¬dm ∧ s.bit_count = 7 then
          ({ s with sync_detected := true, packet_in_progress := true,
                    bit_count := 0, current_byte := 0 }, [])
        else
          ({ s with bit_count := (s.bit_count + 1) % 8 }, [])
      else if s.packet_in_progress then
        let cb := if dp ≠ dm then (s.current_byte ||| (1 <<< s.bit_count)) % 256
                  else s.current_byte
        let bc := s.bit_count + 1
        if bc = 8 then
          let s1 :=
            if s.packet_data_length = 0 then { s with current_pid := cb }
            else if s.packet_data_length < 64 then
              { s with packet_data_buffer :=
                  s.packet_data_buffer.set (s.packet_data_length - 1) cb }
            else s
          ({ s1 with packet_data_length := (s1.packet_data_length + 1) % 256,
                     bit_count := 0, current_byte := 0 }, [])
        else
          ({ s with current_byte := cb, bit_count := bc }, [])
    else (s, [])
    else (s, [])

/-- Run a list of `(dp, dm, timestamp)` edge events through the ISR,
collecting all emitted host notifications. -/
def isr_run (events : List (Bool × Bool × Nat)) : IsrState × List (Nat × List Nat) :=
  events.foldl
    (fun p e =>
      let r := isr_int0 p.1 e.1 e.2.1 e.2.2
      (r.1, p.2 ++ r.2))
    (isrInit, [])

/-- A decoder state with a transaction in progress (as established by
`process_raw_packet` after any token packet, e.g. a BULK IN token). -/
def isrTransactionInProgress : IsrState :=
  { isrInit with transaction_in_progress := true,
                 current_transaction := TransType.bulk_in }

/-- An edge-event trace that drives the decoder from reset through SYNC
detection (8 edges), a PID byte 0x5A (8 bit edges), one payload byte
0xAB (8 bit edges), and a terminating SE0 held for 31 ticks. -/
def isrPacketTrace : List (Bool × Bool × Nat) :=
  [(false, true, 1), (true, true, 2), (false, true, 3), (true, true, 4),
   (false, true, 5), (true, true, 6), (false, true, 7), (true, false, 8),
   (true, true, 9), (true, false, 10), (true, true, 11), (true, false, 12),
   (false, true, 13), (true, true, 14), (true, false, 15), (true, true, 16),
   (true, false, 17), (false, true, 18), (true, true, 19), (true, false, 20),
   (true, true, 21), (true, false, 22), (true, true, 23), (true, false, 24),
   (false, false, 55)]

/-! ## Theorems -/

/-- The count of a ring buffer state is always below 128 (it is reduced
mod 128, mirroring the `& RINGBUF_MASK` in `ringbuffer_count`). -/
theorem ringbuffer_count_lt (rb : RBState) : ringbuffer_count rb < 128 :=
  Nat.mod_lt _ (by norm_num)

/-- C5: for every ring-buffer state reachable by any sequence of push and
pop operations from the freshly initialized buffer,
count() + free() = capacity - 1 = 127; push on a full buffer returns
false, increments overflow_count (uint8), and leaves the stored bytes and
both indices unchanged; pop on an empty buffer reports no value and
leaves the whole state (in particular both indices) unchanged. -/
theorem C5_ringbuffer_invariant :
    (∀ buf0 ops, ringbuffer_count (rb_run buf0 ops) + ringbuffer_free (rb_run buf0 ops) = 127)
    ∧ (∀ buf0 ops b, ringbuffer_full (rb_run buf0 ops) = true →
        ringbuffer_push (rb_run buf0 ops) b =
          (false, { rb_run buf0 ops with
                      overflow_count := ((rb_run buf0 ops).overflow_count + 1) % 256 }))
    ∧ (∀ buf0 ops, ringbuffer_empty (rb_run buf0 ops) = true →
        ringbuffer_pop (rb_run buf0 ops) = (none, rb_run buf0 ops)) := by
  refine ⟨fun buf0 ops => ?_, fun buf0 ops b h => ?_, fun buf0 ops h => ?_⟩
  · have hlt := ringbuffer_count_lt (rb_run buf0 ops)
    unfold ringbuffer_free
    omega
  · unfold ringbuffer_full at h
    unfold ringbuffer_push
    simp only [h]
    rfl
  · unfold ringbuffer_empty at h
    unfold ringbuffer_pop
    have hrw : (rb_run buf0 ops).write_index = (rb_run buf0 ops).read_index :=
      eq_of_beq h
    simp [hrw]

set_option maxRecDepth 100000 in
/-- C5 witness: the invariant at the empty reachable state, the push
behaviour at the reachable full state after 127 pushes, and the pop
behaviour at the empty state. -/
theorem C5_ringbuffer_invariant_witness :
    (ringbuffer_count (rb_run (List.replicate 128 0) []) +
       ringbuffer_free (rb_run (List.replicate 128 0) []) = 127)
    ∧ ringbuffer_push (rb_run (List.replicate 128 0) (List.replicate 127 (RBOp.push 7))) 9 =
        (false, { rb_run (List.replicate 128 0) (List.replicate 127 (RBOp.push 7)) with
                    overflow_count :=
                      ((rb_run (List.replicate 128 0)
                          (List.replicate 127 (RBOp.push 7))).overflow_count + 1) % 256 })
    ∧ ringbuffer_pop (rb_run (List.replicate 128 0) []) = (none, rb_run (List.replicate 128 0) []) :=
  ⟨C5_ringbuffer_invariant.1 (List.replicate 128 0) [],
   C5_ringbuffer_invariant.2.1 (List.replicate 128 0) (List.replicate 127 (RBOp.push 7)) 9
     (by decide),
   C5_ringbuffer_invariant.2.2 (List.replicate 128 0) [] (by decide)⟩

/-- The unescape scan fails exactly when the escape-pending flag is set
after the last byte. -/
theorem unescapeGo_none_iff (l : List Nat) :
    ∀ esc, unescapeGo l esc = none ↔ endFlag l esc = true := by
  induction l with
  | nil => intro esc; cases esc <;> simp [unescapeGo, endFlag]
  | cons b rest ih =>
      intro esc
      cases esc with
      | true => simp [unescapeGo, endFlag, ih]
      | false =>
          by_cases hb : b = 0x55
          · simp [unescapeGo, endFlag, hb, ih]
          · have hb2 : (b == 85) = false := by simp [hb]
            simp [unescapeGo, endFlag, hb, hb2, ih]

/-- Appending one byte updates the final escape-pending flag: it is set
iff the flag was clear before the byte and the byte is 0x55. -/
theorem endFlag_append (l : List Nat) (b : Nat) :
    ∀ esc, endFlag (l ++ [b]) esc = (!(endFlag l esc) && (b == 0x55)) := by
  induction l with
  | nil => intro esc; simp [endFlag]
  | cons x rest ih => intro esc; simp [endFlag, ih]

/-- Appending one byte to a list either extends or clears the trailing
escape run. -/
theorem trailingEsc_append (l : List Nat) (b : Nat) :
    trailingEsc (l ++ [b]) = if b = 0x55 then trailingEsc l + 1 else 0 := by
  by_cases hb : b = 0x55 <;> simp [trailingEsc, List.takeWhile, hb]

/-- Starting from a clear flag, the final escape-pending flag is set iff
the trailing run of 0x55 bytes has odd length. -/
theorem endFlag_false_eq (l : List Nat) :
    endFlag l false = decide (Odd (trailingEsc l)) := by
  induction l using List.reverseRecOn with
  | nil => simp [endFlag, trailingEsc]
  | append_singleton l b ih =>
      rw [endFlag_append, trailingEsc_append, ih]
      by_cases hb : b = 0x55
      · subst hb
        simp only [beq_self_eq_true, Bool.and_true, if_pos]
        rw [← decide_not, decide_eq_decide, Nat.odd_add_one]
      · simp [hb]

/-- C10: comm_unescape_data fails (returns no result) exactly when the
input ends with an escape byte (0x55) beginning an unfinished escape
pair, i.e. when the trailing run of 0x55 bytes has odd length; on every
other input it succeeds and returns the unescaped bytes (whose length is
the reported unescaped_length). -/
theorem C10_unescape_failure (l : List Nat) :
    comm_unescape_data l = none ↔ Odd (trailingEsc l) := by
  rw [comm_unescape_data, unescapeGo_none_iff, endFlag_false_eq]
  exact decide_eq_true_iff

/-- C10 witness: the characterization at the concrete inputs
[0x41, 0x55] (fails) and [0x55, 0x55] (succeeds). -/
theorem C10_unescape_failure_witness :
    (comm_unescape_data [0x41, 0x55] = none ↔ Odd (trailingEsc [0x41, 0x55]))
    ∧ (comm_unescape_data [0x55, 0x55] = none ↔ Odd (trailingEsc [0x55, 0x55])) :=
  ⟨C10_unescape_failure [0x41, 0x55], C10_unescape_failure [0x55, 0x55]⟩

/-- Taking one element past an in-range set exposes the written value. -/
theorem take_set_self (l : List Nat) :
    ∀ i v, i < l.length → (l.set i v).take (i + 1) = l.take i ++ [v] := by
  induction l with
  | nil => intro i v h; simp at h
  | cons hd tl ih =>
      intro i v h
      cases i with
      | zero => simp
      | succ j =>
          simp only [List.set_cons_succ, List.take_succ_cons]
          rw [ih j v (by simpa using h)]
          simp

/-- Invariant of the `comm_escape_data` loop: while the escaped stream
still fits below the uint8 wrap, the cursor equals the number of escaped
bytes produced so far and the destination prefix is exactly that
stream. -/
theorem escape_fold_spec (src : List Nat) :
    ∀ (dest : List Nat) (idx : Nat), dest.length = 256 →
      idx + (escBytes src).length ≤ 255 →
      (src.foldl escStep (dest, idx)).2 = idx + (escBytes src).length
      ∧ (src.foldl escStep (dest, idx)).1.take (idx + (escBytes src).length) =
          dest.take idx ++ escBytes src
      ∧ (src.foldl escStep (dest, idx)).1.length = 256 := by
  induction src with
  | nil => intro dest idx hlen hbound; simp [escBytes, hlen]
  | cons b rest ih =>
      intro dest idx hlen hbound
      by_cases hb : b = 0xAA ∨ b = 0x55
      · have hesc : escBytes (b :: rest) = 0x55 :: (b ^^^ 0xFF) :: escBytes rest := by
          simp [escBytes, hb]
        rw [hesc] at hbound ⊢
        have h1 : idx + 1 < 256 := by simp at hbound; omega
        have h2 : (idx + 1) % 256 = idx + 1 := Nat.mod_eq_of_lt h1
        have h3 : (idx + 2) % 256 = idx + 2 := Nat.mod_eq_of_lt (by simp at hbound; omega)
        have hstep : escStep (dest, idx) b =
            ((dest.set idx 0x55).set (idx + 1) (b ^^^ 0xFF), idx + 2) := by
          simp [escStep, hb, h2, h3]
        simp only [List.foldl_cons, hstep]
        have hlen1 : ((dest.set idx 0x55).set (idx + 1) (b ^^^ 0xFF)).length = 256 := by
          simp [hlen]
        obtain ⟨ha, hc, hd⟩ := ih ((dest.set idx 0x55).set (idx + 1) (b ^^^ 0xFF)) (idx + 2)
          hlen1 (by simp at hbound ⊢; omega)
        refine ⟨by rw [ha]; simp; omega, ?_, hd⟩
        have htake : ((dest.set idx 0x55).set (idx + 1) (b ^^^ 0xFF)).take (idx + 2) =
            dest.take idx ++ [0x55, b ^^^ 0xFF] := by
          have e1 : (dest.set idx 0x55).take (idx + 1) = dest.take idx ++ [0x55] :=
            take_set_self dest idx 0x55 (by omega)
          have e2 : ((dest.set idx 0x55).set (idx + 1) (b ^^^ 0xFF)).take (idx + 2) =
              (dest.set idx 0x55).take (idx + 1) ++ [b ^^^ 0xFF] :=
            take_set_self (dest.set idx 0x55) (idx + 1) (b ^^^ 0xFF) (by simp [hlen]; omega)
          rw [e2, e1]
          simp
        rw [show idx + (0x55 :: (b ^^^ 0xFF) :: escBytes rest).length =
              (idx + 2) + (escBytes rest).length by simp; omega]
        rw [hc, htake]
        simp
      · have hesc : escBytes (b :: rest) = b :: escBytes rest := by
          simp [escBytes, hb]
        rw [hesc] at hbound ⊢
        have h1 : idx + 1 ≤ 255 := by simp at hbound; omega
        have h2 : (idx + 1) % 256 = idx + 1 := Nat.mod_eq_of_lt (by omega)
        have hstep : escStep (dest, idx) b = (dest.set idx b, idx + 1) := by
          simp [escStep, hb, h2]
        simp only [List.foldl_cons, hstep]
        have hlen1 : (dest.set idx b).length = 256 := by simp [hlen]
        obtain ⟨ha, hc, hd⟩ := ih (dest.set idx b) (idx + 1)
          hlen1 (by simp at hbound ⊢; omega)
        refine ⟨by rw [ha]; simp; omega, ?_, hd⟩
        have htake : (dest.set idx b).take (idx + 1) = dest.take idx ++ [b] :=
          take_set_self dest idx b (by omega)
        rw [show idx + (b :: escBytes rest).length = (idx + 1) + (escBytes rest).length by
              simp; omega]
        rw [hc, htake]
        simp

/-- When the escaped stream fits in the uint8 cursor range,
`comm_escape_data` returns exactly the escaped stream and its length. -/
theorem comm_escape_data_eq (src : List Nat) (h : (escBytes src).length ≤ 255) :
    comm_escape_data src = (escBytes src, (escBytes src).length) := by
  obtain ⟨ha, hc, _⟩ := escape_fold_spec src (List.replicate 256 0) 0 (by simp)
    (by simpa using h)
  unfold comm_escape_data
  simp only [ha]
  rw [show (0 : Nat) + (escBytes src).length = (escBytes src).length by omega] at hc ⊢
  simp at hc
  simp [hc]

/-- Unescaping the raw escaped stream recovers the source bytes. -/
theorem unescapeGo_escBytes (src : List Nat) :
    unescapeGo (escBytes src) false = some src := by
  induction src with
  | nil => simp [escBytes, unescapeGo]
  | cons b rest ih =>
      by_cases hb : b = 0xAA ∨ b = 0x55
      · have hxor : (b ^^^ 0xFF) ^^^ 0xFF = b := Nat.xor_cancel_right _ _
        simp [escBytes, hb, unescapeGo, ih, hxor]
      · push_neg at hb
        simp [escBytes, hb, unescapeGo, ih, hb.2]

/-- C6 counterexample: for the 128-byte input consisting of 0xAA bytes
(length 128, within the claimed bound of 255), the escape loop performs
256 writes, so its uint8 cursor wraps to 0 and the reported escaped
length is 0; unescaping the resulting output yields the empty sequence,
not the original input. -/
theorem C6_roundtrip_counterexample :
    comm_unescape_data (comm_escape_data (List.replicate 128 0xAA)).1 = some []
    ∧ comm_unescape_data (comm_escape_data (List.replicate 128 0xAA)).1 ≠
        some (List.replicate 128 0xAA) := by
  constructor
  · rfl
  · intro h
    rw [show comm_unescape_data (comm_escape_data (List.replicate 128 0xAA)).1 = some []
          from rfl] at h
    simp at h

/-- C6 amended: for every byte sequence whose escaped form has at most
255 bytes (length plus number of 0xAA/0x55 occurrences at most 255),
comm_unescape_data applied to the output of comm_escape_data succeeds
and reproduces the original byte sequence with its original length. -/
theorem C6_roundtrip_amended (src : List Nat) (h : (escBytes src).length ≤ 255) :
    comm_unescape_data (comm_escape_data src).1 = some src := by
  rw [comm_escape_data_eq src h]
  exact unescapeGo_escBytes src

/-- C6 witness: the amended round trip at the concrete input
[0xAA, 0x07, 0x55]. -/
theorem C6_roundtrip_amended_witness :
    (escBytes [0xAA, 0x07, 0x55]).length ≤ 255
    ∧ comm_unescape_data (comm_escape_data [0xAA, 0x07, 0x55]).1 = some [0xAA, 0x07, 0x55] :=
  ⟨by decide, C6_roundtrip_amended [0xAA, 0x07, 0x55] (by decide)⟩

/-- C4 counterexample: in WAIT_SYNC with the unescape-next flag clear,
processing the byte 0x55 leaves the state in WAIT_SYNC but sets the
one-shot unescape-next flag, so the decoder state is modified, contrary
to the claim that any byte other than 0xAA changes nothing. -/
theorem C4_wait_sync_counterexample :
    (process_rx_byte rxInit 0x55).state ≠ rxInit
    ∧ (process_rx_byte rxInit 0x55).state.rx_state = ProtoState.wait_sync
    ∧ (process_rx_byte rxInit 0x55).state.escape_next = true
    ∧ rxInit.escape_next = false := by
  refine ⟨?_, by rfl, by rfl, by rfl⟩
  intro h
  have : (process_rx_byte rxInit 0x55).state.escape_next = rxInit.escape_next := by rw [h]
  simp [process_rx_byte, rxInit] at this

/-- C4 amended: while the receive FSM is in WAIT_SYNC with the
unescape-next flag clear, processing any byte other than 0xAA and 0x55
changes nothing; processing 0x55 only sets the one-shot unescape-next
flag (the state stays WAIT_SYNC); processing 0xAA advances the state to
TYPE and resets the data counter. -/
theorem C4_wait_sync_amended :
    ∀ (s : RxState) (b : Nat), s.rx_state = ProtoState.wait_sync → s.escape_next = false →
      ((b ≠ 0xAA → b ≠ 0x55 →
          process_rx_byte s b = { state := s, outputs := [], writes := [] })
       ∧ (b = 0x55 →
          process_rx_byte s b =
            { state := { s with escape_next := true }, outputs := [], writes := [] })
       ∧ (b = 0xAA →
          process_rx_byte s b =
            { state := { s with rx_state := ProtoState.ptype, rx_data_count := 0 },
              outputs := [], writes := [] })) := by
  rintro ⟨st, cnt, plen, pkt, esc⟩ b hst hesc
  simp only at hst hesc
  subst hst
  subst hesc
  refine ⟨fun h1 h2 => ?_, fun h => ?_, fun h => ?_⟩
  · simp [process_rx_byte, h1, h2]
  · subst h
    simp [process_rx_byte]
  · subst h
    simp [process_rx_byte]

/-- C4 witness: the amended behaviour at the reset state for the bytes
0x13, 0x55 and 0xAA. -/
theorem C4_wait_sync_amended_witness :
    ((0x13 : Nat) ≠ 0xAA → (0x13 : Nat) ≠ 0x55 →
       process_rx_byte rxInit 0x13 = { state := rxInit, outputs := [], writes := [] })
    ∧ ((0x13 : Nat) = 0x55 →
       process_rx_byte rxInit 0x13 =
         { state := { rxInit with escape_next := true }, outputs := [], writes := [] })
    ∧ ((0x13 : Nat) = 0xAA →
       process_rx_byte rxInit 0x13 =
         { state := { rxInit with rx_state := ProtoState.ptype, rx_data_count := 0 },
           outputs := [], writes := [] }) :=
  C4_wait_sync_amended rxInit 0x13 (by decide) (by decide)

/-- C7: when the receive FSM consumes the final CRC byte (a byte that
completes CRC_LOW, i.e. the escape flag is pending or the byte is not
the escape byte), it recomputes CRC-16 over the collected
[type, length, sequence, data]; on match it delivers the packet to the
command dispatcher, on mismatch it emits a NACK with error code
ERR_CRC_FAILURE (0x03) carrying the received sequence number and
delivers no packet; in both cases the FSM returns to WAIT_SYNC. -/
theorem C7_crc_low_step :
    ∀ (s : RxState) (b : Nat), s.rx_state = ProtoState.crc_low →
      (s.escape_next = true ∨ b ≠ 0x55) →
      ((process_rx_byte s b).state.rx_state = ProtoState.wait_sync
       ∧ (comm_calculate_crc_continue (s.rx_packet.data.take s.rx_packet.len)
            (comm_calculate_crc [s.rx_packet.ptype, s.rx_packet.len, s.rx_packet.seq]) =
            s.rx_packet.crc ||| (if s.escape_next then b ^^^ 0xFF else b) →
          (process_rx_byte s b).outputs =
            [RxOutput.dispatch { s.rx_packet with
               crc := s.rx_packet.crc ||| (if s.escape_next then b ^^^ 0xFF else b) }])
       ∧ (comm_calculate_crc_continue (s.rx_packet.data.take s.rx_packet.len)
            (comm_calculate_crc [s.rx_packet.ptype, s.rx_packet.len, s.rx_packet.seq]) ≠
            s.rx_packet.crc ||| (if s.escape_next then b ^^^ 0xFF else b) →
          (process_rx_byte s b).outputs =
            [RxOutput.nack s.rx_packet.seq 0x03])) := by
  rintro ⟨st, cnt, plen, pkt, esc⟩ b hst hb
  simp only at hst
  subst hst
  cases esc with
  | true =>
      refine ⟨by simp [process_rx_byte], fun hcrc => ?_, fun hcrc => ?_⟩
      · have hcrc2 : comm_calculate_crc_continue (pkt.data.take pkt.len)
            (comm_calculate_crc [pkt.ptype, pkt.len, pkt.seq]) = pkt.crc ||| (b ^^^ 0xFF) := by
          simpa using hcrc
        simp [process_rx_byte, hcrc2]
      · have hcrc2 : comm_calculate_crc_continue (pkt.data.take pkt.len)
            (comm_calculate_crc [pkt.ptype, pkt.len, pkt.seq]) ≠ pkt.crc ||| (b ^^^ 0xFF) := by
          simpa using hcrc
        simp [process_rx_byte, hcrc2]
  | false =>
      have hb2 : b ≠ 0x55 := by
        rcases hb with h | h
        · exact absurd h (by simp)
        · exact h
      refine ⟨by simp [process_rx_byte, hb2], fun hcrc => ?_, fun hcrc => ?_⟩
      · have hcrc2 : comm_calculate_crc_continue (pkt.data.take pkt.len)
            (comm_calculate_crc [pkt.ptype, pkt.len, pkt.seq]) = pkt.crc ||| b := by
          simpa using hcrc
        simp [process_rx_byte, hb2, hcrc2]
      · have hcrc2 : comm_calculate_crc_continue (pkt.data.take pkt.len)
            (comm_calculate_crc [pkt.ptype, pkt.len, pkt.seq]) ≠ pkt.crc ||| b := by
          simpa using hcrc
        simp [process_rx_byte, hb2, hcrc2]

/-- C7 witness: the CRC_LOW completion behaviour at a concrete state
(type 5, empty payload, sequence 9) consuming the byte 0x00. -/
theorem C7_crc_low_step_witness :
    ((process_rx_byte rxCrcLowExample 0x00).state.rx_state = ProtoState.wait_sync
     ∧ (comm_calculate_crc_continue
          (rxCrcLowExample.rx_packet.data.take rxCrcLowExample.rx_packet.len)
          (comm_calculate_crc [rxCrcLowExample.rx_packet.ptype,
             rxCrcLowExample.rx_packet.len, rxCrcLowExample.rx_packet.seq]) =
          rxCrcLowExample.rx_packet.crc |||
            (if rxCrcLowExample.escape_next then 0x00 ^^^ 0xFF else 0x00) →
        (process_rx_byte rxCrcLowExample 0x00).outputs =
          [RxOutput.dispatch { rxCrcLowExample.rx_packet with
             crc := rxCrcLowExample.rx_packet.crc |||
               (if rxCrcLowExample.escape_next then 0x00 ^^^ 0xFF else 0x00) }])
     ∧ (comm_calculate_crc_continue
          (rxCrcLowExample.rx_packet.data.take rxCrcLowExample.rx_packet.len)
          (comm_calculate_crc [rxCrcLowExample.rx_packet.ptype,
             rxCrcLowExample.rx_packet.len, rxCrcLowExample.rx_packet.seq]) ≠
          rxCrcLowExample.rx_packet.crc |||
            (if rxCrcLowExample.escape_next then 0x00 ^^^ 0xFF else 0x00) →
        (process_rx_byte rxCrcLowExample 0x00).outputs =
          [RxOutput.nack rxCrcLowExample.rx_packet.seq 0x03])) :=
  C7_crc_low_step rxCrcLowExample 0x00 (by rfl) (Or.inr (by decide))

/-- Any single receive step only ever stores payload bytes at indices
strictly below 255 (the `rx_data_count < COMM_MAX_PACKET_SIZE` guard). -/
theorem process_rx_byte_writes_lt (s : RxState) (b : Nat) :
    ∀ p ∈ (process_rx_byte s b).writes, p.1 < 255 := by
  intro p hp
  rcases s with ⟨st, cnt, plen, pkt, esc⟩
  cases st <;>
    · simp only [process_rx_byte] at hp
      split_ifs at hp <;> simp_all

/-- C9: for every input byte stream fed to the receive FSM from the
reset state, every store into the 255-byte rx_packet.data array happens
at an index strictly below 255 — the guarded store never goes out of
bounds, even when the received length byte exceeds the number of data
bytes that arrive. -/
theorem C9_rx_writes_in_bounds :
    ∀ (bytes : List Nat) (p : Nat × Nat), p ∈ (rx_run bytes).2 → p.1 < 255 := by
  have gen : ∀ (bytes : List Nat) (s : RxState) (acc : List (Nat × Nat)),
      (∀ p ∈ acc, p.1 < 255) →
      ∀ p ∈ (bytes.foldl
          (fun p b =>
            let r := process_rx_byte p.1 b
            (r.state, p.2 ++ r.writes)) (s, acc)).2, p.1 < 255 := by
    intro bytes
    induction bytes with
    | nil => intro s acc hacc p hp; exact hacc p hp
    | cons b rest ih =>
        intro s acc hacc p hp
        refine ih (process_rx_byte s b).state (acc ++ (process_rx_byte s b).writes) ?_ p hp
        intro q hq
        rcases List.mem_append.mp hq with h | h
        · exact hacc q h
        · exact process_rx_byte_writes_lt s b q h
  intro bytes p hp
  exact gen bytes rxInit [] (by simp) p hp

/-- C9 witness: the bound at the concrete stream
[0xAA, 0x01, 0x02, 0x09, 0x4D], whose single data byte is stored at
index 0. -/
theorem C9_rx_writes_in_bounds_witness :
    ((0, 0x4D) : Nat × Nat) ∈ (rx_run [0xAA, 0x01, 0x02, 0x09, 0x4D]).2
    ∧ ((0, 0x4D) : Nat × Nat).1 < 255 :=
  ⟨by decide, C9_rx_writes_in_bounds [0xAA, 0x01, 0x02, 0x09, 0x4D] (0, 0x4D) (by decide)⟩

/-- The all-zero `usb_packet_t` used as the caller's packet struct when
instantiating decode theorems. -/
def usbPacketZero : UsbPacket :=
  { timestamp := 0, pid := 0, endpoint := 0, dev_addr := 0,
    data_len := 0, data := [], crc_valid := false }

/-- C3 counterexample: for the DATA0 packet [0xC3, 0xAB, 0x7E, 0xFB],
the USB CRC16 of the one-byte payload [0xAB] is 0x7EFB, which equals the
big-endian interpretation of the last two bytes (second-to-last 0x7E as
high byte, last 0xFB as low byte), so the claim demands crc_valid = true;
the code instead compares against (last << 8) | second-to-last = 0xFB7E
and reports crc_valid = false. -/
theorem C3_data_crc_counterexample :
    usb_calculate_crc16 [0xAB] = (0x7E <<< 8) ||| 0xFB
    ∧ (usb_decode_packet [0xC3, 0xAB, 0x7E, 0xFB] usbPacketZero).map UsbPacket.crc_valid =
        some false := by
  constructor
  · rfl
  · rfl

/-- C3 amended: for every DATA0/DATA1 raw packet of length at least 4,
usb_decode_packet sets crc_valid to true if and only if the USB CRC16 of
the payload (all bytes except the PID and the trailing two bytes) equals
the 16-bit value formed with the LAST byte as the high CRC byte and the
second-to-last byte as the low CRC byte. -/
theorem C3_data_crc_amended :
    ∀ (raw : List Nat) (p0 : UsbPacket),
      (raw.getD 0 0 = USB_PID_DATA0 ∨ raw.getD 0 0 = USB_PID_DATA1) → 4 ≤ raw.length →
      ∃ pkt, usb_decode_packet raw p0 = some pkt
        ∧ (pkt.crc_valid = true ↔
            usb_calculate_crc16 ((raw.drop 1).take (raw.length - 3)) =
              (raw.getD (raw.length - 1) 0 <<< 8) ||| raw.getD (raw.length - 2) 0) := by
  intro raw p0 hpid hlen
  rcases raw with _ | ⟨b0, rest⟩
  · simp at hlen
  simp only [List.getD_cons_zero] at hpid
  have h1 : ¬(b0 :: rest).length < 1 := by simp
  have h3 : ¬(b0 :: rest).length < 3 := by simp at hlen ⊢; omega
  have hd : (b0 :: rest).length - 3 > 0 := by simp at hlen ⊢; omega
  have htok : usb_is_token_packet b0 = false := by
    rcases hpid with h | h <;> rw [h] <;> rfl
  have hdat : usb_is_data_packet b0 = true := by
    rcases hpid with h | h <;> rw [h] <;> rfl
  refine ⟨{ p0 with
              pid := b0
              data_len := (b0 :: rest).length - 3
              data := ((b0 :: rest).drop 1).take ((b0 :: rest).length - 3)
              crc_valid :=
                usb_calculate_crc16 (((b0 :: rest).drop 1).take ((b0 :: rest).length - 3)) ==
                  (((b0 :: rest).getD ((b0 :: rest).length - 1) 0 <<< 8) |||
                    (b0 :: rest).getD ((b0 :: rest).length - 2) 0) },
          ?_, ?_⟩
  · simp [usb_decode_packet, h1, h3, hd, htok, hdat]
    have hr : 3 ≤ rest.length := by simp at hlen; omega
    exact ⟨by omega, fun h => absurd h (by omega)⟩
  · simp [beq_iff_eq]

/-- C3 witness: the amended equivalence at the concrete packet
[0xC3, 0xAB, 0xFB, 0x7E], which carries the CRC in the byte order the
code actually checks. -/
theorem C3_data_crc_amended_witness :
    ((0xC3 : Nat) = USB_PID_DATA0 ∨ (0xC3 : Nat) = USB_PID_DATA1)
    ∧ ∃ pkt, usb_decode_packet [0xC3, 0xAB, 0xFB, 0x7E] usbPacketZero = some pkt
        ∧ (pkt.crc_valid = true ↔
            usb_calculate_crc16 (([0xC3, 0xAB, 0xFB, 0x7E].drop 1).take 1) =
              (((0x7E : Nat)) <<< 8) ||| 0xFB) :=
  ⟨Or.inl rfl,
   by
    obtain ⟨pkt, h1, h2⟩ := C3_data_crc_amended [0xC3, 0xAB, 0xFB, 0x7E] usbPacketZero
      (Or.inl rfl) (by decide)
    exact ⟨pkt, h1, h2⟩⟩

/-- C8: usb_decode_packet on a token-PID input with fewer than 3 bytes
fails; on a 3-byte token it extracts dev_addr = b2 & 0x7F and
endpoint = ((b1 & 0x07) << 1) | ((b2 & 0x80) >> 7), and sets crc_valid
exactly when the CRC5 of the 11 address+endpoint bits equals the
trailing 5 bits of the packet; in particular the well-formed 3-byte
SETUP token [0x2D, 0xC9, 0x05] (addr 5, endpoint 2) decodes with
dev_addr = 5, endpoint = 2 and crc_valid = true. -/
theorem C8_token_decode :
    (∀ (raw : List Nat) (p0 : UsbPacket),
        usb_is_token_packet (raw.getD 0 0) = true → raw.length < 3 →
        usb_decode_packet raw p0 = none)
    ∧ (∀ (b0 b1 b2 : Nat) (p0 : UsbPacket),
        usb_is_token_packet b0 = true →
        usb_decode_packet [b0, b1, b2] p0 =
          some { p0 with
                   pid := b0
                   dev_addr := b2 &&& 0x7F
                   endpoint := ((b1 &&& 0x07) <<< 1) ||| ((b2 &&& 0x80) >>> 7)
                   crc_valid := usb_calculate_crc5 ((b1 ||| (b2 <<< 8)) &&& 0x07FF) == b2 >>> 3
                   data := []
                   data_len := 0 })
    ∧ (∃ pkt, usb_decode_packet [0x2D, 0xC9, 0x05] usbPacketZero = some pkt
         ∧ pkt.dev_addr = 5 ∧ pkt.endpoint = 2 ∧ pkt.crc_valid = true) := by
  refine ⟨?_, ?_, ?_⟩
  · intro raw p0 htok hlen
    rcases raw with _ | ⟨b0, raw⟩
    · simp [usb_decode_packet]
    · simp only [List.getD_cons_zero] at htok
      have h1 : ¬(b0 :: raw).length < 1 := by simp
      simp [usb_decode_packet, h1, htok, hlen]
      simp at hlen
      omega
  · intro b0 b1 b2 p0 htok
    have h1 : ¬([b0, b1, b2] : List Nat).length < 1 := by simp
    have h3 : ¬([b0, b1, b2] : List Nat).length < 3 := by simp
    simp [usb_decode_packet, h1, h3, htok, usb_get_address_from_token,
      usb_get_endpoint_from_token]
  · exact ⟨_, rfl, rfl, rfl, rfl⟩

/-- C8 witness: the short-input failure at the 2-byte token [0xE1, 0x00]
and the 3-byte decode at the OUT token [0xE1, 0x00, 0x00]. -/
theorem C8_token_decode_witness :
    usb_decode_packet [0xE1, 0x00] usbPacketZero = none
    ∧ usb_decode_packet [0xE1, 0x00, 0x00] usbPacketZero =
        some { usbPacketZero with
                 pid := 0xE1
                 dev_addr := 0 &&& 0x7F
                 endpoint := ((0 &&& 0x07) <<< 1) ||| ((0 &&& 0x80) >>> 7)
                 crc_valid := usb_calculate_crc5 ((0 ||| (0 <<< 8)) &&& 0x07FF) == 0 >>> 3
                 data := []
                 data_len := 0 }
    ∧ (∃ pkt, usb_decode_packet [0x2D, 0xC9, 0x05] usbPacketZero = some pkt
         ∧ pkt.dev_addr = 5 ∧ pkt.endpoint = 2 ∧ pkt.crc_valid = true) :=
  ⟨C8_token_decode.1 [0xE1, 0x00] usbPacketZero (by decide) (by decide),
   C8_token_decode.2.1 0xE1 0 0 usbPacketZero (by decide),
   C8_token_decode.2.2⟩

/-- C1 evaluation: an SE0 edge event with 300 ticks since the previous
edge (beyond the 250-tick bus-reset threshold), arriving while a
transaction is in progress, produces exactly one USB_STATE_CHANGE (0x81)
notification with code 2 and sets bus_reset_detected — but it leaves
transaction_in_progress true and current_transaction unchanged: no code
path ever resets the transaction state on bus reset (the
bus_reset_detected flag is never consumed). -/
theorem C1_busreset_leaves_transaction :
    (isr_int0 isrTransactionInProgress false false 300).2 = [(0x81, [2])]
    ∧ (isr_int0 isrTransactionInProgress false false 300).1.transaction_in_progress = true
    ∧ (isr_int0 isrTransactionInProgress false false 300).1.current_transaction =
        TransType.bulk_in
    ∧ (isr_int0 isrTransactionInProgress false false 300).1.bus_reset_detected = true := by
  refine ⟨?_, ?_, ?_, ?_⟩ <;> rfl

/-- C2 evaluation: after the decoder commits a PID byte 0x5A and exactly
one payload byte 0xAB, the end-of-packet flush pushes the four bytes
[0x5A, 0x02, 0xAB, 0x00] into the packet ring buffer: the byte after the
PID is 2 (the payload count plus one, because packet_data_length also
counts the PID), and an extra never-committed buffer byte (0x00) is
pushed after the payload, contradicting the claimed
[PID][payload_length][payload bytes...] layout. -/
theorem C2_flush_layout :
    ((isr_run (isrPacketTrace.take 24)).1.current_pid = 0x5A
     ∧ (isr_run (isrPacketTrace.take 24)).1.packet_data_length = 2
     ∧ (isr_run (isrPacketTrace.take 24)).1.packet_data_buffer.getD 0 0 = 0xAB
     ∧ (isr_run (isrPacketTrace.take 24)).1.packet_data_buffer.getD 1 0 = 0x00)
    ∧ rb_contents (isr_run isrPacketTrace).1.usb_packet_buffer = [0x5A, 0x02, 0xAB, 0x00]
    ∧ (isr_run isrPacketTrace).2 = [] := by
  refine ⟨⟨?_, ?_, ?_, ?_⟩, ?_, ?_⟩ <;> rfl

end USBShark
